import Mathlib

/-!
Verification development for the document-to-source compiler of the
local-builder repository (file `src/lib/generator.ts`).

The embedding models the generator's data as it is consumed by the code:
an item carries its `type` tag, its (schema-shaped) `props` record and the
optional `readOnly.puckId` identifier; a page carries root props, the root
content zone and the flat zone map (an association list mirroring the JS
object, keys unique in well-formed documents).  The two recursive JSX
generators recurse through the zone map, which in JavaScript terminates
only on acyclic (tree-shaped) documents; the embedding makes that measure
explicit with a fuel parameter (`pageFuel` below is a sufficient bound for
every tree-shaped document, since each level of zone nesting passes through
at least one item).  All template strings are transcribed byte-for-byte
from the source; braces, apostrophes and backticks appear as \x7b \x7d
\x27 \x60 escapes.
-/

structure AccItem where
  title : String
  content : String
deriving DecidableEq

/-- Union of the per-type prop shapes of `src/types.ts`; the generator reads
`props` untyped (`item.props` has type `any` in the source), with the editor
guaranteeing the fields a given `type` uses are present. -/
structure ItemProps where
  columns : Nat := 0
  gap : Nat := 0
  paddingY : Nat := 0
  bgColor : String := ""
  sectionTitle : String := ""
  text : String := ""
  variant : String := ""
  size : String := ""
  actionType : String := ""
  actionTarget : String := ""
  title : String := ""
  description : String := ""
  content : String := ""
  footer : String := ""
  items : List AccItem := []
  type : String := ""
  placeholder : String := ""
  label : String := ""
  value : Nat := 0
  orientation : String := ""
deriving DecidableEq

/-- A node as the generator sees it: `type`, `props`, and `readOnly?.puckId`
(`none` models an absent `readOnly`/`puckId`). -/
structure Item where
  type : String
  puckId : Option String := none
  props : ItemProps := {}
deriving DecidableEq

structure RootProps where
  canvasColor : String := ""
  maxWidth : String := ""
  pageTitle : String := ""
  pageRoute : String := ""
deriving DecidableEq

/-- Puck `Data`: root props, root content zone, zone map (`zones` an
association list standing for the JS object; an absent `zones` object is
observationally the empty map in every use the generator makes of it). -/
structure PageData where
  root : RootProps := {}
  content : List Item := []
  zones : List (String × List Item) := []
deriving DecidableEq

structure Page where
  id : String := ""
  data : PageData := {}
deriving DecidableEq

inductive ExportFormat where
  | shadcn
  | bootstrap
deriving DecidableEq

structure ComponentEntry where
  path : String
  imports : List String
  cli : String
deriving DecidableEq

def SHADCN_COMPONENT_MAP : List (String × ComponentEntry) := [
  ("Section", { path := "", imports := [], cli := "" }),
  ("Card", { path := "@/components/ui/card", imports := ["Card", "CardHeader", "CardTitle", "CardDescription", "CardContent", "CardFooter"], cli := "card" }),
  ("Button", { path := "@/components/ui/button", imports := ["Button"], cli := "button" }),
  ("Input", { path := "@/components/ui/input", imports := ["Input"], cli := "input" }),
  ("Label", { path := "@/components/ui/label", imports := ["Label"], cli := "label" }),
  ("Accordion", { path := "@/components/ui/accordion", imports := ["Accordion", "AccordionContent", "AccordionItem", "AccordionTrigger"], cli := "accordion" }),
  ("Separator", { path := "@/components/ui/separator", imports := ["Separator"], cli := "separator" }),
  ("Badge", { path := "@/components/ui/badge", imports := ["Badge"], cli := "badge" }),
  ("Alert", { path := "@/components/ui/alert", imports := ["Alert", "AlertDescription", "AlertTitle"], cli := "alert" }),
  ("Progress", { path := "@/components/ui/progress", imports := ["Progress"], cli := "progress" })]

def mapBootstrapVariant (variant : String) : String :=
  if variant = "default" then "btn-primary"
  else if variant = "destructive" then "btn-danger"
  else if variant = "outline" then "btn-outline-dark"
  else if variant = "secondary" then "btn-secondary"
  else if variant = "ghost" then "btn-link"
  else if variant = "link" then "btn-link"
  else "btn-primary"

/-- `${item.readOnly?.puckId}` as interpolated by a JS template literal
(an absent id prints as the text `undefined`). -/
def pidStr (i : Item) : String :=
  match i.puckId with
  | some s => s
  | none => "undefined"

/-- Truthiness of `item.readOnly?.puckId` (the guard in `findUsed`). -/
def puckTruthy (i : Item) : Bool :=
  match i.puckId with
  | some s => s ≠ ""
  | none => false

/-- `props.columns || 1`. -/
def colCountOf (i : Item) : Nat :=
  if i.props.columns = 0 then 1 else i.props.columns

/-- The zone key `` `${item.readOnly?.puckId}:col-${i}` ``. -/
def zoneKeyOf (i : Item) (idx : Nat) : String :=
  pidStr i ++ ":col-" ++ toString idx

/-- `data.zones?.[zoneKey] || []`. -/
def zoneItemsAt (d : PageData) (i : Item) (idx : Nat) : List Item :=
  (d.zones.lookup (zoneKeyOf i idx)).getD []

def shadcnColumnDiv (zoneContent : String) : String :=
  "\n        <div className=\"flex flex-col gap-4\">\n          " ++ zoneContent ++ "\n        </div>"

def shadcnSectionShell (p : ItemProps) (columnsJSX : String) : String :=
  "\n      <section \n        style=\x7b\x7b \n          backgroundColor: \x27" ++ p.bgColor ++ "\x27, \n          paddingTop: \x27" ++ toString p.paddingY ++ "px\x27, \n          paddingBottom: \x27" ++ toString p.paddingY ++ "px\x27 \n        \x7d\x7d\n      >\n        <div \n          className=\"grid w-full px-6\" \n          style=\x7b\x7b \n            gridTemplateColumns: \x27repeat(" ++ toString p.columns ++ ", minmax(0, 1fr))\x27, \n            gap: \x27" ++ toString p.gap ++ "px\x27 \n          \x7d\x7d\n        >\n          " ++ columnsJSX ++ "\n        </div>\n      </section>"

/-- `generateShadcnJSX`, fuel-indexed (the JS recursion terminates exactly on
tree-shaped zone data; emission at exhausted fuel is the empty string). -/
def generateShadcnJSX : Nat → Item → PageData → String
  | 0, _, _ => ""
  | n+1, item, d =>
    let props := item.props
    if item.type = "Section" then
      let colCount := colCountOf item
      let columnsJSX := String.intercalate "\n" ((List.range colCount).map (fun i =>
        let zoneItems := zoneItemsAt d item i
        let zoneContent := String.intercalate "\n          " (zoneItems.map (fun zi => generateShadcnJSX n zi d))
        shadcnColumnDiv zoneContent))
      shadcnSectionShell props columnsJSX
    else if item.type = "Card" then
      "<Card><CardHeader><CardTitle>" ++ props.title ++ "</CardTitle><CardDescription>" ++ props.description ++ "</CardDescription></CardHeader><CardContent>" ++ props.content ++ "</CardContent>" ++ (if props.footer ≠ "" then "<CardFooter>" ++ props.footer ++ "</CardFooter>" else "") ++ "</Card>"
    else if item.type = "Button" then
      let onClick := if props.actionType = "link" ∧ props.actionTarget ≠ "" then " onClick=\x7b() => window.location.href = \"" ++ props.actionTarget ++ "\"\x7d" else ""
      let onClick := if props.actionType = "alert" ∧ props.actionTarget ≠ "" then " onClick=\x7b() => alert(\"" ++ props.actionTarget ++ "\")\x7d" else onClick
      "<Button variant=\"" ++ props.variant ++ "\" size=\"" ++ props.size ++ "\"" ++ onClick ++ ">" ++ props.text ++ "</Button>"
    else if item.type = "Badge" then
      "<Badge variant=\"" ++ props.variant ++ "\">" ++ props.text ++ "</Badge>"
    else if item.type = "Separator" then
      "<Separator orientation=\"" ++ props.orientation ++ "\" />"
    else if item.type = "Alert" then
      "<Alert variant=\"" ++ props.variant ++ "\"><AlertCircle className=\"h-4 w-4\" /><AlertTitle>" ++ props.title ++ "</AlertTitle><AlertDescription>" ++ props.description ++ "</AlertDescription></Alert>"
    else if item.type = "Progress" then
      "<div className=\"w-full space-y-2\"><Label>" ++ props.label ++ "</Label><Progress value=\x7b" ++ toString props.value ++ "\x7d /></div>"
    else if item.type = "Input" then
      "<div className=\"space-y-2\"><Label>" ++ props.label ++ "</Label><Input type=\"" ++ props.type ++ "\" placeholder=\"" ++ props.placeholder ++ "\" /></div>"
    else if item.type = "Accordion" then
      "<Accordion type=\"single\" collapsible>" ++ String.join (props.items.enum.map (fun p => "<AccordionItem value=\"item-" ++ toString p.1 ++ "\"><AccordionTrigger>" ++ p.2.title ++ "</AccordionTrigger><AccordionContent>" ++ p.2.content ++ "</AccordionContent></AccordionItem>")) ++ "</Accordion>"
    else ""

def bootstrapColumnDiv (colSize : Nat) (zoneContent : String) : String :=
  "\n        <div className=\"col-md-" ++ toString colSize ++ " mb-3 d-flex flex-column gap-3\">\n          " ++ zoneContent ++ "\n        </div>"

def bootstrapSectionShell (p : ItemProps) (columnsJSX : String) : String :=
  "\n      <section className=\"container-fluid\" style=\x7b\x7b backgroundColor: \x27" ++ p.bgColor ++ "\x27, paddingTop: \x27" ++ toString p.paddingY ++ "px\x27, paddingBottom: \x27" ++ toString p.paddingY ++ "px\x27 \x7d\x7d>\n        <div className=\"row\" style=\x7b\x7b gap: \x27" ++ toString p.gap ++ "px\x27 \x7d\x7d>\n          " ++ columnsJSX ++ "\n        </div>\n      </section>"

/-- `generateBootstrapJSX`, fuel-indexed like its shadcn counterpart. -/
def generateBootstrapJSX : Nat → Item → PageData → String
  | 0, _, _ => ""
  | n+1, item, d =>
    let props := item.props
    if item.type = "Section" then
      let colSize := 12 / colCountOf item
      let columnsJSX := String.intercalate "\n" ((List.range (colCountOf item)).map (fun i =>
        let zoneContent := String.intercalate "\n" ((zoneItemsAt d item i).map (fun zi => generateBootstrapJSX n zi d))
        bootstrapColumnDiv colSize zoneContent))
      bootstrapSectionShell props columnsJSX
    else if item.type = "Card" then
      "\n        <div className=\"card h-100 shadow-sm\">\n          <div className=\"card-header bg-white\">\n            <h5 className=\"card-title mb-0\">" ++ props.title ++ "</h5>\n            <small className=\"text-muted\">" ++ props.description ++ "</small>\n          </div>\n          <div className=\"card-body\">\n            <p className=\"card-text\">" ++ props.content ++ "</p>\n          </div>\n          " ++ (if props.footer ≠ "" then "<div className=\"card-footer text-muted\">" ++ props.footer ++ "</div>" else "") ++ "\n        </div>"
    else if item.type = "Button" then
      let bootstrapClass := mapBootstrapVariant props.variant
      let sizeClass := if props.size = "lg" then "btn-lg" else if props.size = "sm" then "btn-sm" else ""
      let onClick := if props.actionType = "link" ∧ props.actionTarget ≠ "" then " onClick=\x7b() => window.location.href = \"" ++ props.actionTarget ++ "\"\x7d" else ""
      let onClick := if props.actionType = "alert" ∧ props.actionTarget ≠ "" then " onClick=\x7b() => alert(\"" ++ props.actionTarget ++ "\")\x7d" else onClick
      "<button type=\"button\" className=\x7b\x60btn " ++ bootstrapClass ++ " " ++ sizeClass ++ " w-100\x60\x7d" ++ onClick ++ ">" ++ props.text ++ "</button>"
    else if item.type = "Badge" then
      let badgeClass := if props.variant = "secondary" then "bg-secondary" else if props.variant = "outline" then "border text-dark" else "bg-primary"
      "<span className=\x7b\x60badge " ++ badgeClass ++ "\x60\x7d>" ++ props.text ++ "</span>"
    else if item.type = "Alert" then
      let alertClass := if props.variant = "destructive" then "alert-danger" else "alert-primary"
      "\n        <div className=\x7b\x60alert " ++ alertClass ++ "\x60\x7d role=\"alert\">\n          <h6 className=\"alert-heading fw-bold\">" ++ props.title ++ "</h6>\n          <p className=\"mb-0\">" ++ props.description ++ "</p>\n        </div>"
    else if item.type = "Input" then
      "\n        <div className=\"mb-3\">\n          <label className=\"form-label fw-bold text-muted small text-uppercase\">" ++ props.label ++ "</label>\n          <input type=\"" ++ props.type ++ "\" className=\"form-control\" placeholder=\"" ++ props.placeholder ++ "\" />\n        </div>"
    else if item.type = "Progress" then
      "\n        <div className=\"mb-3 w-100\">\n            <label className=\"form-label fw-bold text-muted small text-uppercase\">" ++ props.label ++ "</label>\n            <div className=\"progress\" style=\x7b\x7b height: \x276px\x27 \x7d\x7d>\n                <div className=\"progress-bar\" role=\"progressbar\" style=\x7b\x7b width: \"" ++ toString props.value ++ "%\" \x7d\x7d aria-valuenow=\x7b" ++ toString props.value ++ "\x7d aria-valuemin=\x7b0\x7d aria-valuax=\x7b100\x7d></div>\n            </div>\n        </div>"
    else if item.type = "Separator" then
      "<hr className=\"" ++ (if props.orientation = "vertical" then "d-inline-block h-100 border-end border-0 align-middle mx-3" else "my-3") ++ "\" />"
    else if item.type = "Accordion" then
      "\n        <div className=\"accordion\" id=\"accordionExample\">\n          " ++ String.join (props.items.enum.map (fun p => "\n          <div className=\"accordion-item\">\n            <h2 className=\"accordion-header\">\n              <button className=\"accordion-button collapsed\" type=\"button\" data-bs-toggle=\"collapse\" data-bs-target=\"#collapse" ++ toString p.1 ++ "\">\n                " ++ p.2.title ++ "\n              </button>\n            </h2>\n            <div id=\"collapse" ++ toString p.1 ++ "\" className=\"accordion-collapse collapse\" data-bs-parent=\"#accordionExample\">\n              <div className=\"accordion-body\">\n                " ++ p.2.content ++ "\n              </div>\n            </div>\n          </div>")) ++ "\n        </div>"
    else ""

/-- JS `key.startsWith(puckId)`, modelled at the character level. -/
def jsStartsWith (s p : String) : Bool :=
  p.data.isPrefixOf s.data

/-- `Set.add` on a JS `Set` kept as its insertion-order element list. -/
def setAdd (acc : List String) (x : String) : List String :=
  if x ∈ acc then acc else acc ++ [x]

/-- The two unconditional additions `findUsed` makes for one item:
`usedOnPage.add(i.type)` and the implicit `Label` companion for
`Input`/`Progress`. -/
def addItemTypes (acc : List String) (i : Item) : List String :=
  let a1 := setAdd acc i.type
  if i.type = "Input" ∨ i.type = "Progress" then setAdd a1 "Label" else a1

mutual

/-- The recursive `findUsed` walk of `saveProject` (shadcn branch), fuel
indexed: at exhausted fuel the item-level additions still happen but zone
descent stops (the JS walk terminates exactly on acyclic zone data). -/
def findUsed (fuel : Nat) (d : PageData) (items : List Item) (acc : List String) : List String :=
  match fuel, items with
  | _, [] => acc
  | 0, i :: rest => findUsed 0 d rest (addItemTypes acc i)
  | n+1, i :: rest =>
    let a2 := addItemTypes acc i
    let a3 := if puckTruthy i then findUsedZones n d d.zones (pidStr i) a2 else a2
    findUsed (n+1) d rest a3
termination_by (fuel, 1, items.length)

/-- The `Object.keys(page.data.zones).forEach` loop inside `findUsed`:
descend into every zone whose key starts with the item's puck id. -/
def findUsedZones (fuel : Nat) (d : PageData) (zs : List (String × List Item)) (pid : String) (acc : List String) : List String :=
  match zs with
  | [] => acc
  | kv :: rest =>
    let a1 := if jsStartsWith kv.1 pid then findUsed fuel d kv.2 acc else acc
    findUsedZones fuel d rest pid a1
termination_by (fuel, 2, zs.length)

end

/-- `usedOnPage` after `findUsed(page.data.content)` on a fresh `Set`. -/
def usedOnPage (fuel : Nat) (d : PageData) : List String :=
  findUsed fuel d d.content []

def shadcnEntryFor (t : String) : Option ComponentEntry :=
  SHADCN_COMPONENT_MAP.lookup t

/-- One element of the mapped array building `importStr`:
`SHADCN_COMPONENT_MAP[t] && SHADCN_COMPONENT_MAP[t].path ? import-line : ""`. -/
def shadcnLineFor (t : String) : String :=
  match shadcnEntryFor t with
  | some e => if e.path ≠ "" then "import \x7b " ++ String.intercalate ", " e.imports ++ " \x7d from \"" ++ e.path ++ "\";" else ""
  | none => ""

/-- `importStr`: the mapped lines, `.filter(Boolean).join("\n")`. -/
def shadcnImportBlock (used : List String) : String :=
  String.intercalate "\n" ((used.map shadcnLineFor).filter (fun s => s ≠ ""))

/-- `pageProps?.pageTitle?.replace(/[^a-z0-9]/gi, '_').toLowerCase() || "untitled"`
(an absent title is modelled by `""`; either way the `||` fallback fires
exactly on the empty result). -/
def derivePageName (t : String) : String :=
  let r := String.mk ((t.data.map (fun c => if c.isAlphanum then c else '_')).map Char.toLower)
  if r = "" then "untitled" else r

/-- `s.charAt(0).toUpperCase() + s.slice(1)`. -/
def capFirst (s : String) : String :=
  match s.data with
  | [] => ""
  | c :: cs => String.mk (Char.toUpper c :: cs)

/-- Fuel sufficient for every tree-shaped document: zone nesting depth is
bounded by the total number of items in the document. -/
def pageFuel (d : PageData) : Nat :=
  d.content.length + (d.zones.map (fun kv => kv.2.length)).sum + 1

/-- The shadcn page file text (before `.trim()`). -/
def shadcnPageCode (d : PageData) : String :=
  let pageName := derivePageName d.root.pageTitle
  let used := usedOnPage (pageFuel d) d
  let jsx := String.intercalate "\n      " (d.content.map (fun i => generateShadcnJSX (pageFuel d) i d))
  "\nimport React from \x27react\x27;\nimport \x7b AlertCircle \x7d from \"lucide-react\";\n" ++ shadcnImportBlock used ++ "\n\nexport default function " ++ capFirst pageName ++ "() \x7b\n  return (\n    <div className=\"min-h-screen w-full transition-all\" style=\x7b\x7b backgroundColor: \x27" ++ d.root.canvasColor ++ "\x27 \x7d\x7d>\n      <div className=\"mx-auto " ++ d.root.maxWidth ++ "\">\n        " ++ jsx ++ "\n      </div>\n    </div>\n  );\n\x7d"

/-- The bootstrap page file text (before `.trim()`). -/
def bootstrapPageCode (d : PageData) : String :=
  let pageName := derivePageName d.root.pageTitle
  let jsx := String.intercalate "\n      " (d.content.map (fun i => generateBootstrapJSX (pageFuel d) i d))
  "\nimport React from \x27react\x27;\nimport \x27bootstrap/dist/css/bootstrap.min.css\x27;\nimport \x27bootstrap/dist/js/bootstrap.bundle.min.js\x27;\n\nexport default function " ++ capFirst pageName ++ "() \x7b\n  return (\n    <div style=\x7b\x7b backgroundColor: \x27" ++ d.root.canvasColor ++ "\x27, minHeight: \x27100vh\x27 \x7d\x7d>\n      <div className=\"" ++ (if d.root.maxWidth = "max-w-full" then "container-fluid" else "container") ++ "\">\n        " ++ jsx ++ "\n      </div>\n    </div>\n  );\n\x7d"

/-- `zip.file(path, content)`: JSZip replaces an entry that already has the
same full path, else appends. -/
def zipAdd (entries : List (String × String)) (path content : String) : List (String × String) :=
  if entries.any (fun e => e.1 = path) then
    entries.map (fun e => if e.1 = path then (path, content) else e)
  else entries ++ [(path, content)]

/-- `SHADCN_COMPONENT_MAP[c]?.cli` with `undefined` collapsed to `""` (both
are removed by the following `.filter(Boolean)`). -/
def cliFor (t : String) : String :=
  match shadcnEntryFor t with
  | some e => e.cli
  | none => ""

def shadcnCliCommand (allUsed : List String) : String :=
  "npx shadcn@latest add " ++ String.intercalate " " ((allUsed.map cliFor).filter (fun s => s ≠ ""))

def shadcnReadme (allUsed : List String) : String :=
  "# Generated Site (Shadcn)\n\nRun this to install dependencies:\n\x60\x60\x60bash\n" ++ shadcnCliCommand allUsed ++ "\n\x60\x60\x60"

def bootstrapReadme : String :=
  "# Generated Site (Bootstrap)\n\nRun this to install dependencies:\n\x60\x60\x60bash\nnpm install bootstrap\n\x60\x60\x60"

/-- `zip.folder("src")?.folder("pages")?.file(pageName + ".tsx", ...)`:
the entry's full archive path. -/
def pagePath (d : PageData) : String :=
  "src/pages/" ++ derivePageName d.root.pageTitle ++ ".tsx"

/-- One iteration of `pages.forEach` in `saveProject`: state is the archive
entry list plus the `allUsedComponents` set (insertion-order list). -/
def exportStep (fmt : ExportFormat) (st : List (String × String) × List String) (page : Page) : List (String × String) × List String :=
  let d := page.data
  let all2 := match fmt with
    | .shadcn => (usedOnPage (pageFuel d) d).foldl setAdd st.2
    | .bootstrap => st.2
  let code := match fmt with
    | .shadcn => shadcnPageCode d
    | .bootstrap => bootstrapPageCode d
  (zipAdd st.1 (pagePath d) code.trim, all2)

/-- `saveProject`: the archive (path, text) entries the zip is generated
from — every page file plus the README. -/
def buildArchive (pages : List Page) (fmt : ExportFormat) : List (String × String) :=
  let st := pages.foldl (exportStep fmt) ([], [])
  match fmt with
  | .shadcn => zipAdd st.1 "README.md" (shadcnReadme st.2)
  | .bootstrap => zipAdd st.1 "README.md" bootstrapReadme

mutual

/-- The raw first-to-last sequence of `Set.add` arguments that `findUsed`
makes (duplicates kept): the traversal order underlying the set's
insertion order. -/
def findUsedSeq (fuel : Nat) (d : PageData) (items : List Item) : List String :=
  match fuel, items with
  | _, [] => []
  | 0, i :: rest =>
    (i.type :: (if i.type = "Input" ∨ i.type = "Progress" then ["Label"] else [])) ++ findUsedSeq 0 d rest
  | n+1, i :: rest =>
    (i.type :: (if i.type = "Input" ∨ i.type = "Progress" then ["Label"] else []))
      ++ (if puckTruthy i then findUsedSeqZones n d d.zones (pidStr i) else [])
      ++ findUsedSeq (n+1) d rest
termination_by (fuel, 1, items.length)

def findUsedSeqZones (fuel : Nat) (d : PageData) (zs : List (String × List Item)) (pid : String) : List String :=
  match zs with
  | [] => []
  | kv :: rest =>
    (if jsStartsWith kv.1 pid then findUsedSeq fuel d kv.2 else []) ++ findUsedSeqZones fuel d rest pid
termination_by (fuel, 2, zs.length)

end

/-- First-occurrence deduplication of a list (what folding a JS `Set`
over the list produces, read back in insertion order). -/
def dedupKeepFirst : List String → List String
  | [] => []
  | x :: xs => x :: dedupKeepFirst (xs.filter (fun y => y ≠ x))
termination_by l => l.length
decreasing_by simp only [List.length_cons]; exact Nat.lt_succ_of_le (List.length_filter_le _ _)

/-- The node types the Tree Emitter can reach, mirroring the emitters'
zone-resolution rule exactly: an emitted item contributes its `type`; an
emitted `Section` additionally emits (hence reaches) the zones
`puckId:col-0 .. puckId:col-(columns||1 - 1)`, children one fuel lower. -/
def reachTypes (fuel : Nat) (d : PageData) (items : List Item) : List String :=
  match fuel, items with
  | 0, _ => []
  | n+1, items =>
    items.flatMap (fun i =>
      i.type :: (if i.type = "Section" then
        (List.range (colCountOf i)).flatMap (fun idx => reachTypes n d (zoneItemsAt d i idx))
      else []))
termination_by (fuel, items.length)

theorem mem_setAdd {acc : List String} {x y : String} :
    y ∈ setAdd acc x ↔ y ∈ acc ∨ y = x := by
  unfold setAdd
  split
  · next hx =>
    refine ⟨Or.inl, ?_⟩
    rintro (h | rfl)
    · exact h
    · exact hx
  · simp

theorem setAdd_subset (acc : List String) (x : String) : acc ⊆ setAdd acc x := by
  intro y hy; exact mem_setAdd.mpr (Or.inl hy)

theorem mem_setAdd_self (acc : List String) (x : String) : x ∈ setAdd acc x :=
  mem_setAdd.mpr (Or.inr rfl)

theorem setAdd_nodup {acc : List String} (h : acc.Nodup) (x : String) : (setAdd acc x).Nodup := by
  unfold setAdd
  split
  · exact h
  · next hx => simpa [List.nodup_append] using ⟨h, hx⟩

theorem mem_addItemTypes {acc : List String} {i : Item} {y : String} :
    y ∈ addItemTypes acc i ↔ y ∈ acc ∨ y = i.type ∨ ((i.type = "Input" ∨ i.type = "Progress") ∧ y = "Label") := by
  unfold addItemTypes
  split
  · next hio => simp [mem_setAdd, hio, or_assoc]
  · next hio => simp [mem_setAdd]; tauto

theorem addItemTypes_subset (acc : List String) (i : Item) : acc ⊆ addItemTypes acc i := by
  intro y hy; exact mem_addItemTypes.mpr (Or.inl hy)

theorem addItemTypes_nodup {acc : List String} (h : acc.Nodup) (i : Item) : (addItemTypes acc i).Nodup := by
  unfold addItemTypes
  split
  · exact setAdd_nodup (setAdd_nodup h _) _
  · exact setAdd_nodup h _


mutual

theorem findUsed_subset (fuel : Nat) (d : PageData) (items : List Item) (acc : List String) :
    acc ⊆ findUsed fuel d items acc := by
  match fuel, items with
  | fuel, [] =>
    rw [findUsed]; exact fun _ h => h
  | 0, i :: rest =>
    rw [findUsed]
    exact (addItemTypes_subset acc i).trans (findUsed_subset 0 d rest _)
  | n+1, i :: rest =>
    rw [findUsed]
    refine List.Subset.trans ?_ (findUsed_subset (n+1) d rest _)
    split
    · exact (addItemTypes_subset acc i).trans (findUsedZones_subset n d d.zones (pidStr i) _)
    · exact addItemTypes_subset acc i
termination_by (fuel, 1, items.length)

theorem findUsedZones_subset (fuel : Nat) (d : PageData) (zs : List (String × List Item)) (pid : String) (acc : List String) :
    acc ⊆ findUsedZones fuel d zs pid acc := by
  match zs with
  | [] =>
    rw [findUsedZones]; exact fun _ h => h
  | kv :: rest =>
    rw [findUsedZones]
    refine List.Subset.trans ?_ (findUsedZones_subset fuel d rest pid _)
    split
    · exact findUsed_subset fuel d kv.2 acc
    · exact fun _ h => h
termination_by (fuel, 2, zs.length)

end

mutual

theorem findUsed_nodup (fuel : Nat) (d : PageData) (items : List Item) (acc : List String)
    (h : acc.Nodup) : (findUsed fuel d items acc).Nodup := by
  match fuel, items with
  | fuel, [] =>
    rw [findUsed]; exact h
  | 0, i :: rest =>
    rw [findUsed]
    exact findUsed_nodup 0 d rest _ (addItemTypes_nodup h i)
  | n+1, i :: rest =>
    rw [findUsed]
    refine findUsed_nodup (n+1) d rest _ ?_
    split
    · exact findUsedZones_nodup n d d.zones (pidStr i) _ (addItemTypes_nodup h i)
    · exact addItemTypes_nodup h i
termination_by (fuel, 1, items.length)

theorem findUsedZones_nodup (fuel : Nat) (d : PageData) (zs : List (String × List Item)) (pid : String) (acc : List String)
    (h : acc.Nodup) : (findUsedZones fuel d zs pid acc).Nodup := by
  match zs with
  | [] =>
    rw [findUsedZones]; exact h
  | kv :: rest =>
    rw [findUsedZones]
    refine findUsedZones_nodup fuel d rest pid _ ?_
    split
    · exact findUsed_nodup fuel d kv.2 acc h
    · exact h
termination_by (fuel, 2, zs.length)

end

theorem mem_findUsed_type (fuel : Nat) (d : PageData) (items : List Item) (acc : List String)
    (i : Item) (hi : i ∈ items) : i.type ∈ findUsed fuel d items acc := by
  match fuel, items with
  | _, [] => cases hi
  | 0, j :: rest =>
    rw [findUsed]
    rcases List.mem_cons.mp hi with rfl | hi
    · exact findUsed_subset 0 d rest _ (mem_addItemTypes.mpr (Or.inr (Or.inl rfl)))
    · exact mem_findUsed_type 0 d rest _ i hi
  | n+1, j :: rest =>
    rw [findUsed]
    rcases List.mem_cons.mp hi with rfl | hi
    · refine findUsed_subset (n+1) d rest _ ?_
      have hbase : i.type ∈ addItemTypes acc i := mem_addItemTypes.mpr (Or.inr (Or.inl rfl))
      split
      · exact findUsedZones_subset n d d.zones (pidStr i) _ hbase
      · exact hbase
    · exact mem_findUsed_type (n+1) d rest _ i hi
termination_by (fuel, items.length)

theorem mem_findUsed_label (fuel : Nat) (d : PageData) (items : List Item) (acc : List String)
    (i : Item) (hi : i ∈ items) (hio : i.type = "Input" ∨ i.type = "Progress") :
    "Label" ∈ findUsed fuel d items acc := by
  match fuel, items with
  | _, [] => cases hi
  | 0, j :: rest =>
    rw [findUsed]
    rcases List.mem_cons.mp hi with rfl | hi
    · exact findUsed_subset 0 d rest _ (mem_addItemTypes.mpr (Or.inr (Or.inr ⟨hio, rfl⟩)))
    · exact mem_findUsed_label 0 d rest _ i hi hio
  | n+1, j :: rest =>
    rw [findUsed]
    rcases List.mem_cons.mp hi with rfl | hi
    · refine findUsed_subset (n+1) d rest _ ?_
      have hbase : "Label" ∈ addItemTypes acc i := mem_addItemTypes.mpr (Or.inr (Or.inr ⟨hio, rfl⟩))
      split
      · exact findUsedZones_subset n d d.zones (pidStr i) _ hbase
      · exact hbase
    · exact mem_findUsed_label (n+1) d rest _ i hi hio
termination_by (fuel, items.length)

theorem mem_findUsedZones_descend (fuel : Nat) (d : PageData) (zs : List (String × List Item)) (pid : String)
    (acc : List String) (kv : String × List Item) (hkv : kv ∈ zs) (hsw : jsStartsWith kv.1 pid = true)
    (t : String) (ht : ∀ acc', t ∈ findUsed fuel d kv.2 acc') :
    t ∈ findUsedZones fuel d zs pid acc := by
  match zs with
  | [] => cases hkv
  | kv' :: rest =>
    rw [findUsedZones]
    rcases List.mem_cons.mp hkv with rfl | hkv
    · refine findUsedZones_subset fuel d rest pid _ ?_
      rw [if_pos hsw]
      exact ht acc
    · exact mem_findUsedZones_descend fuel d rest pid _ kv hkv hsw t ht

theorem mem_findUsed_descend (n : Nat) (d : PageData) (items : List Item) (acc : List String)
    (i : Item) (hi : i ∈ items) (hp : puckTruthy i = true)
    (t : String) (ht : ∀ acc', t ∈ findUsedZones n d d.zones (pidStr i) acc') :
    t ∈ findUsed (n+1) d items acc := by
  match items with
  | [] => cases hi
  | j :: rest =>
    rw [findUsed]
    rcases List.mem_cons.mp hi with rfl | hi
    · refine findUsed_subset (n+1) d rest _ ?_
      rw [if_pos hp]
      exact ht _
    · exact mem_findUsed_descend n d rest _ i hi hp t ht

theorem jsStartsWith_append (a b : String) : jsStartsWith (a ++ b) a = true := by
  simp [jsStartsWith, List.isPrefixOf_iff_prefix, String.data_append]

theorem lookup_mem {l : List (String × List Item)} {k : String} {v : List Item}
    (h : l.lookup k = some v) : (k, v) ∈ l := by
  induction l with
  | nil => simp [List.lookup] at h
  | cons x xs ih =>
    rw [List.lookup] at h
    split at h
    · next hbeq =>
      cases h
      have hk : k = x.1 := by simpa using hbeq
      subst hk
      exact List.mem_cons_self _ _
    · exact List.mem_cons_of_mem _ (ih h)

/-- An item stored anywhere in the document: in the root content zone or in
some zone of the zone map. -/
def ItemIn (d : PageData) (i : Item) : Prop :=
  i ∈ d.content ∨ ∃ kv ∈ d.zones, i ∈ kv.2

theorem reachTypes_nil (fuel : Nat) (d : PageData) : reachTypes fuel d [] = [] := by
  cases fuel
  · rw [reachTypes]
  · rw [reachTypes]; simp

theorem zoneKeyOf_startsWith (i : Item) (idx : Nat) :
    jsStartsWith (zoneKeyOf i idx) (pidStr i) = true := by
  have : zoneKeyOf i idx = pidStr i ++ (":col-" ++ toString idx) := by
    rw [zoneKeyOf, String.append_assoc]
  rw [this]
  exact jsStartsWith_append _ _

/-- Core of the dependency-coverage claim: every node type the Tree Emitter
can reach is collected by the `findUsed` walk (at the same fuel), provided
every stored item carries a truthy puck id. -/
theorem reach_subset_findUsed (fuel : Nat) (d : PageData) (items : List Item) (acc : List String)
    (hpid : ∀ it, ItemIn d it → puckTruthy it = true)
    (hitems : ∀ i ∈ items, ItemIn d i)
    (t : String) (ht : t ∈ reachTypes fuel d items) :
    t ∈ findUsed fuel d items acc := by
  match fuel with
  | 0 =>
    rw [reachTypes] at ht
    cases ht
  | n+1 =>
    rw [reachTypes] at ht
    obtain ⟨i, himem, hin⟩ := List.mem_flatMap.mp ht
    rcases List.mem_cons.mp hin with rfl | hin
    · exact mem_findUsed_type (n+1) d items acc i himem
    · split at hin
      case isFalse => cases hin
      case isTrue hsec =>
        obtain ⟨idx, _, hidx⟩ := List.mem_flatMap.mp hin
        cases hlk : d.zones.lookup (zoneKeyOf i idx) with
        | none =>
          simp only [zoneItemsAt, hlk, Option.getD_none, reachTypes_nil] at hidx
          cases hidx
        | some zs =>
          have hzeq : zoneItemsAt d i idx = zs := by rw [zoneItemsAt, hlk]; rfl
          rw [hzeq] at hidx
          have hkv : (zoneKeyOf i idx, zs) ∈ d.zones := lookup_mem hlk
          have hzitems : ∀ j ∈ zs, ItemIn d j := fun j hj => Or.inr ⟨(zoneKeyOf i idx, zs), hkv, hj⟩
          have hrec : ∀ acc', t ∈ findUsed n d zs acc' := fun acc' =>
            reach_subset_findUsed n d zs acc' hpid hzitems t hidx
          have hzmem : ∀ acc', t ∈ findUsedZones n d d.zones (pidStr i) acc' := fun acc' =>
            mem_findUsedZones_descend n d d.zones (pidStr i) acc' _ hkv (zoneKeyOf_startsWith i idx) t hrec
          exact mem_findUsed_descend n d items acc i himem (hpid i (hitems i himem)) t hzmem
termination_by fuel

/-- Folding `Set.add` over a list of additions. -/
def setAddAll (acc : List String) (l : List String) : List String :=
  l.foldl setAdd acc

theorem setAddAll_nil (acc : List String) : setAddAll acc [] = acc := rfl

theorem setAddAll_append (acc : List String) (l₁ l₂ : List String) :
    setAddAll acc (l₁ ++ l₂) = setAddAll (setAddAll acc l₁) l₂ := by
  simp [setAddAll, List.foldl_append]

theorem mem_setAddAll {acc : List String} {l : List String} {x : String} :
    x ∈ setAddAll acc l ↔ x ∈ acc ∨ x ∈ l := by
  induction l generalizing acc with
  | nil => simp [setAddAll]
  | cons y ys ih =>
    show x ∈ setAddAll (setAdd acc y) ys ↔ _
    rw [ih, mem_setAdd]
    simp only [List.mem_cons]
    tauto


theorem addItemTypes_eq_setAddAll (acc : List String) (i : Item) :
    addItemTypes acc i = setAddAll acc (i.type :: if i.type = "Input" ∨ i.type = "Progress" then ["Label"] else []) := by
  unfold addItemTypes setAddAll
  split
  · rfl
  · rfl

mutual

theorem findUsed_eq_setAddAll (fuel : Nat) (d : PageData) (items : List Item) (acc : List String) :
    findUsed fuel d items acc = setAddAll acc (findUsedSeq fuel d items) := by
  match fuel, items with
  | fuel, [] =>
    rw [findUsed, findUsedSeq, setAddAll_nil]
  | 0, i :: rest =>
    rw [findUsed, findUsedSeq, setAddAll_append, addItemTypes_eq_setAddAll]
    exact findUsed_eq_setAddAll 0 d rest _
  | n+1, i :: rest =>
    rw [findUsed, findUsedSeq, setAddAll_append, setAddAll_append]
    rw [findUsed_eq_setAddAll (n+1) d rest _]
    congr 1
    split
    · rw [addItemTypes_eq_setAddAll]
      exact findUsedZones_eq_setAddAll n d d.zones (pidStr i) _
    · rw [setAddAll_nil]
      exact addItemTypes_eq_setAddAll acc i
termination_by (fuel, 1, items.length)

theorem findUsedZones_eq_setAddAll (fuel : Nat) (d : PageData) (zs : List (String × List Item)) (pid : String) (acc : List String) :
    findUsedZones fuel d zs pid acc = setAddAll acc (findUsedSeqZones fuel d zs pid) := by
  match zs with
  | [] =>
    rw [findUsedZones, findUsedSeqZones, setAddAll_nil]
  | kv :: rest =>
    rw [findUsedZones, findUsedSeqZones, setAddAll_append]
    rw [findUsedZones_eq_setAddAll fuel d rest pid _]
    congr 1
    split
    · exact findUsed_eq_setAddAll fuel d kv.2 acc
    · rw [setAddAll_nil]
termination_by (fuel, 2, zs.length)

end


theorem dedupKeepFirst_cons (x : String) (xs : List String) :
    dedupKeepFirst (x :: xs) = x :: dedupKeepFirst (xs.filter (fun y => y ≠ x)) := by
  rw [dedupKeepFirst.eq_def]

theorem setAddAll_eq_dedup (l : List String) (acc : List String) :
    setAddAll acc l = acc ++ dedupKeepFirst (l.filter (fun x => x ∉ acc)) := by
  induction l generalizing acc with
  | nil => simp [setAddAll, dedupKeepFirst]
  | cons y ys ih =>
    show setAddAll (setAdd acc y) ys = _
    rw [ih]
    by_cases hy : y ∈ acc
    · have hadd : setAdd acc y = acc := by simp [setAdd, hy]
      rw [hadd]
      congr 2
      rw [List.filter_cons]
      simp [hy]
    · have hadd : setAdd acc y = acc ++ [y] := by simp [setAdd, hy]
      rw [hadd, List.filter_cons]
      simp only [hy, not_false_iff, decide_True, if_true, List.append_assoc, List.singleton_append]
      rw [dedupKeepFirst_cons]
      congr 2
      rw [List.filter_filter]
      congr 1
      apply List.filter_congr
      intro x _
      simp [List.mem_append, not_or, and_comm]

theorem mem_dedupKeepFirst {l : List String} {y : String} :
    y ∈ dedupKeepFirst l ↔ y ∈ l := by
  match l with
  | [] => rw [dedupKeepFirst]
  | x :: xs =>
    rw [dedupKeepFirst_cons]
    by_cases hxy : y = x
    · subst hxy
      simp
    · simp only [List.mem_cons, hxy, false_or]
      rw [mem_dedupKeepFirst (l := xs.filter (fun z => z ≠ x))]
      simp [List.mem_filter, hxy]
termination_by l.length
decreasing_by simp only [List.length_cons]; exact Nat.lt_succ_of_le (List.length_filter_le _ _)

theorem dedupKeepFirst_nodup (l : List String) : (dedupKeepFirst l).Nodup := by
  match l with
  | [] => rw [dedupKeepFirst]; exact List.nodup_nil
  | x :: xs =>
    rw [dedupKeepFirst_cons]
    refine List.nodup_cons.mpr ⟨?_, dedupKeepFirst_nodup _⟩
    intro hx
    have := List.mem_filter.mp (mem_dedupKeepFirst.mp hx)
    simp at this
termination_by l.length
decreasing_by simp only [List.length_cons]; exact Nat.lt_succ_of_le (List.length_filter_le _ _)

/-- `usedOnPage` is exactly the first-occurrence deduplication of the raw
traversal sequence: the JS `Set` read back in insertion order. -/
theorem usedOnPage_eq_dedup (fuel : Nat) (d : PageData) :
    usedOnPage fuel d = dedupKeepFirst (findUsedSeq fuel d d.content) := by
  rw [usedOnPage, findUsed_eq_setAddAll, setAddAll_eq_dedup]
  simp

theorem usedOnPage_nodup (fuel : Nat) (d : PageData) : (usedOnPage fuel d).Nodup :=
  findUsed_nodup fuel d d.content [] List.nodup_nil

/-- The union set `allUsedComponents` accumulates across pages, written as a
standalone fold. -/
def allUsedList (pages : List Page) : List String :=
  pages.foldl (fun acc p => setAddAll acc (usedOnPage (pageFuel p.data) p.data)) []

theorem exportFold_snd (pages : List Page) (st : List (String × String) × List String) :
    (pages.foldl (exportStep ExportFormat.shadcn) st).2 =
      pages.foldl (fun acc p => setAddAll acc (usedOnPage (pageFuel p.data) p.data)) st.2 := by
  induction pages generalizing st with
  | nil => rfl
  | cons p ps ih =>
    rw [List.foldl_cons, List.foldl_cons, ih]
    rfl

theorem exportFold_snd_bootstrap (pages : List Page) (st : List (String × String) × List String) :
    (pages.foldl (exportStep ExportFormat.bootstrap) st).2 = st.2 := by
  induction pages generalizing st with
  | nil => rfl
  | cons p ps ih =>
    rw [List.foldl_cons, ih]
    rfl

theorem mem_allUsedList_aux (pages : List Page) (acc : List String) (x : String) :
    x ∈ pages.foldl (fun acc p => setAddAll acc (usedOnPage (pageFuel p.data) p.data)) acc ↔
      x ∈ acc ∨ ∃ p ∈ pages, x ∈ usedOnPage (pageFuel p.data) p.data := by
  induction pages generalizing acc with
  | nil => simp
  | cons p ps ih =>
    rw [List.foldl_cons, ih, mem_setAddAll]
    simp [or_assoc]

/-- Membership in the across-pages union set is exactly "used on some page". -/
theorem mem_allUsedList (pages : List Page) (x : String) :
    x ∈ allUsedList pages ↔ ∃ p ∈ pages, x ∈ usedOnPage (pageFuel p.data) p.data := by
  rw [allUsedList, mem_allUsedList_aux]
  simp

theorem zipAdd_of_not_mem {entries : List (String × String)} {path : String} (content : String)
    (h : path ∉ entries.map Prod.fst) : zipAdd entries path content = entries ++ [(path, content)] := by
  rw [zipAdd, if_neg]
  intro hany
  obtain ⟨e, he, heq⟩ := List.any_eq_true.mp hany
  exact h (List.mem_map.mpr ⟨e, he, by simpa using heq⟩)

theorem pagePath_ne_readme (d : PageData) : pagePath d ≠ "README.md" := by
  intro h
  rw [pagePath, String.ext_iff] at h
  simp only [String.data_append] at h
  cases h

theorem exportFold_fst (fmt : ExportFormat) (pages : List Page) (st : List (String × String) × List String)
    (hnd : (pages.map (fun p => pagePath p.data)).Nodup)
    (hdisj : ∀ p ∈ pages, pagePath p.data ∉ st.1.map Prod.fst) :
    ((pages.foldl (exportStep fmt) st).1).map Prod.fst =
      st.1.map Prod.fst ++ pages.map (fun p => pagePath p.data) := by
  induction pages generalizing st with
  | nil => simp
  | cons p ps ih =>
    rw [List.foldl_cons]
    have hstep1 : (exportStep fmt st p).1 =
        st.1 ++ [(pagePath p.data, (match fmt with
          | ExportFormat.shadcn => shadcnPageCode p.data
          | ExportFormat.bootstrap => bootstrapPageCode p.data).trim)] := by
      rw [exportStep.eq_def]
      exact zipAdd_of_not_mem _ (hdisj p (List.mem_cons_self _ _))
    have hnd' : (ps.map (fun p => pagePath p.data)).Nodup := (List.nodup_cons.mp hnd).2
    have hni : pagePath p.data ∉ ps.map (fun p => pagePath p.data) := (List.nodup_cons.mp hnd).1
    rw [ih _ hnd' ?_]
    · rw [hstep1]
      simp [List.map_append]
    · intro q hq
      rw [hstep1]
      simp only [List.map_append, List.mem_append]
      rintro (hq1 | hq2)
      · exact hdisj q (List.mem_cons_of_mem _ hq) hq1
      · simp at hq2
        rw [← hq2] at hni
        exact hni (List.mem_map.mpr ⟨q, hq, rfl⟩)

theorem pageFileName_inj : Function.Injective (fun n => "src/pages/" ++ n ++ ".tsx" : String → String) := by
  intro a b h
  simp only [String.ext_iff, String.data_append] at h ⊢
  exact List.append_cancel_left (List.append_cancel_right h)

theorem buildArchive_paths (pages : List Page) (fmt : ExportFormat)
    (hnd : (pages.map (fun p => derivePageName p.data.root.pageTitle)).Nodup) :
    (buildArchive pages fmt).map Prod.fst =
      pages.map (fun p => pagePath p.data) ++ ["README.md"] := by
  have hndp : (pages.map (fun p => pagePath p.data)).Nodup := by
    have : pages.map (fun p => pagePath p.data) =
        (pages.map (fun p => derivePageName p.data.root.pageTitle)).map
          (fun n => "src/pages/" ++ n ++ ".tsx") := by
      rw [List.map_map]
      rfl
    rw [this]
    exact hnd.map pageFileName_inj
  have hfold := exportFold_fst fmt pages ([], []) hndp (by simp)
  have hnr : ("README.md" : String) ∉ ((pages.foldl (exportStep fmt) ([], [])).1).map Prod.fst := by
    rw [hfold]
    simp only [List.map_nil, List.nil_append]
    intro hmem
    obtain ⟨p, _, hp⟩ := List.mem_map.mp hmem
    exact pagePath_ne_readme p.data hp
  cases fmt with
  | shadcn =>
    rw [buildArchive]
    rw [zipAdd_of_not_mem _ hnr]
    rw [List.map_append, hfold]
    simp
  | bootstrap =>
    rw [buildArchive]
    rw [zipAdd_of_not_mem _ hnr]
    rw [List.map_append, hfold]
    simp

theorem join_cons (x : String) (xs : List String) :
    String.join (x :: xs) = x ++ String.join xs := by
  simp [String.ext_iff, String.join_eq, String.data_append]

theorem go_eq (s : String) (t : List String) : ∀ acc : String,
    String.intercalate.go acc s t = acc ++ String.join (t.map (fun x => s ++ x)) := by
  induction t with
  | nil => intro acc; simp [String.intercalate.go, String.join]
  | cons a as ih =>
    intro acc
    rw [String.intercalate.go, ih, List.map_cons, join_cons]
    simp [String.append_assoc]

theorem intercalate_eq_join (s a : String) (as : List String) :
    String.intercalate s (a :: as) = a ++ String.join (as.map (fun x => s ++ x)) := by
  rw [String.intercalate, go_eq]

theorem str_mid_sub (a b x : String) : x.data <:+: ((a ++ x) ++ b).data := by
  rw [String.data_append, String.data_append]
  exact ⟨_, _, rfl⟩

theorem sub_append_left_str (a : List Char) {x z : List Char} (h : x <:+: z) : x <:+: a ++ z :=
  h.trans (List.suffix_append a z).isInfix

/-- An element of the joined list is a substring (contiguous character
run) of the `Array.prototype.join` result. -/
theorem sub_intercalate_of_mem {x : String} {l : List String} (s : String) (h : x ∈ l) :
    x.data <:+: (String.intercalate s l).data := by
  match l with
  | [] => cases h
  | a :: as =>
    rw [intercalate_eq_join]
    rcases List.mem_cons.mp h with rfl | h
    · rw [String.data_append]
      exact (List.prefix_append x.data _).isInfix
    · have h1 : x.data <:+ (s ++ x).data := by
        rw [String.data_append]; exact List.suffix_append _ _
      have h2 : (s ++ x).data ∈ ((as.map (fun y => s ++ y)).map String.data) :=
        List.mem_map.mpr ⟨s ++ x, List.mem_map.mpr ⟨x, h, rfl⟩, rfl⟩
      have h3 : (s ++ x).data <:+: ((as.map (fun y => s ++ y)).map String.data).flatten :=
        List.infix_of_mem_flatten h2
      have h4 : (String.join (as.map (fun y => s ++ y))).data =
          ((as.map (fun y => s ++ y)).map String.data).flatten := by
        rw [String.join_eq]
      rw [String.data_append, h4]
      exact sub_append_left_str _ (h1.isInfix.trans h3)

theorem generateShadcnJSX_section (n : Nat) (item : Item) (d : PageData) (hsec : item.type = "Section") :
    generateShadcnJSX (n+1) item d = shadcnSectionShell item.props
      (String.intercalate "\n" ((List.range (colCountOf item)).map (fun i =>
        shadcnColumnDiv (String.intercalate "\n          "
          ((zoneItemsAt d item i).map (fun zi => generateShadcnJSX n zi d)))))) := by
  simp only [generateShadcnJSX, hsec, if_true]

theorem generateBootstrapJSX_section (n : Nat) (item : Item) (d : PageData) (hsec : item.type = "Section") :
    generateBootstrapJSX (n+1) item d = bootstrapSectionShell item.props
      (String.intercalate "\n" ((List.range (colCountOf item)).map (fun i =>
        bootstrapColumnDiv (12 / colCountOf item) (String.intercalate "\n"
          ((zoneItemsAt d item i).map (fun zi => generateBootstrapJSX n zi d)))))) := by
  simp only [generateBootstrapJSX, hsec, if_true]

theorem shadcnColumnDiv_sub (z : String) : z.data <:+: (shadcnColumnDiv z).data :=
  str_mid_sub _ _ z

theorem shadcnSectionShell_sub (p : ItemProps) (c : String) : c.data <:+: (shadcnSectionShell p c).data :=
  str_mid_sub _ _ c

theorem bootstrapColumnDiv_sub (cs : Nat) (z : String) : z.data <:+: (bootstrapColumnDiv cs z).data :=
  str_mid_sub _ _ z

theorem bootstrapSectionShell_sub (p : ItemProps) (c : String) : c.data <:+: (bootstrapSectionShell p c).data :=
  str_mid_sub _ _ c

theorem lt_colCountOf {item : Item} {i : Nat} (hi : i < item.props.columns) : i < colCountOf item := by
  rw [colCountOf]
  split
  · next h => rw [h] at hi; cases hi
  · exact hi

theorem section_child_emitted_shadcn (n : Nat) (item : Item) (d : PageData) (i : Nat) (child : Item)
    (hsec : item.type = "Section") (hi : i < item.props.columns)
    (hchild : child ∈ zoneItemsAt d item i) :
    (generateShadcnJSX n child d).data <:+: (generateShadcnJSX (n+1) item d).data := by
  rw [generateShadcnJSX_section n item d hsec]
  have h1 : (generateShadcnJSX n child d).data <:+:
      (String.intercalate "\n          " ((zoneItemsAt d item i).map (fun zi => generateShadcnJSX n zi d))).data :=
    sub_intercalate_of_mem _ (List.mem_map.mpr ⟨child, hchild, rfl⟩)
  have h2 := shadcnColumnDiv_sub (String.intercalate "\n          "
      ((zoneItemsAt d item i).map (fun zi => generateShadcnJSX n zi d)))
  have h3 : shadcnColumnDiv (String.intercalate "\n          "
        ((zoneItemsAt d item i).map (fun zi => generateShadcnJSX n zi d))) ∈
      (List.range (colCountOf item)).map (fun j => shadcnColumnDiv (String.intercalate "\n          "
        ((zoneItemsAt d item j).map (fun zi => generateShadcnJSX n zi d)))) :=
    List.mem_map.mpr ⟨i, List.mem_range.mpr (lt_colCountOf hi), rfl⟩
  have h4 := sub_intercalate_of_mem "\n" h3
  exact ((h1.trans h2).trans h4).trans (shadcnSectionShell_sub _ _)

theorem section_child_emitted_bootstrap (n : Nat) (item : Item) (d : PageData) (i : Nat) (child : Item)
    (hsec : item.type = "Section") (hi : i < item.props.columns)
    (hchild : child ∈ zoneItemsAt d item i) :
    (generateBootstrapJSX n child d).data <:+: (generateBootstrapJSX (n+1) item d).data := by
  rw [generateBootstrapJSX_section n item d hsec]
  have h1 : (generateBootstrapJSX n child d).data <:+:
      (String.intercalate "\n" ((zoneItemsAt d item i).map (fun zi => generateBootstrapJSX n zi d))).data :=
    sub_intercalate_of_mem _ (List.mem_map.mpr ⟨child, hchild, rfl⟩)
  have h2 := bootstrapColumnDiv_sub (12 / colCountOf item) (String.intercalate "\n"
      ((zoneItemsAt d item i).map (fun zi => generateBootstrapJSX n zi d)))
  have h3 : bootstrapColumnDiv (12 / colCountOf item) (String.intercalate "\n"
        ((zoneItemsAt d item i).map (fun zi => generateBootstrapJSX n zi d))) ∈
      (List.range (colCountOf item)).map (fun j => bootstrapColumnDiv (12 / colCountOf item) (String.intercalate "\n"
        ((zoneItemsAt d item j).map (fun zi => generateBootstrapJSX n zi d)))) :=
    List.mem_map.mpr ⟨i, List.mem_range.mpr (lt_colCountOf hi), rfl⟩
  have h4 := sub_intercalate_of_mem "\n" h3
  exact ((h1.trans h2).trans h4).trans (bootstrapSectionShell_sub _ _)

/-- The node types the two emitters have a markup rule for (the `case`
labels of their `switch`). -/
def emitterTypes : List String :=
  ["Section", "Card", "Button", "Badge", "Separator", "Alert", "Progress", "Input", "Accordion"]

theorem generateShadcnJSX_unknown (n : Nat) (item : Item) (d : PageData)
    (h : item.type ∉ emitterTypes) : generateShadcnJSX (n+1) item d = "" := by
  simp only [emitterTypes, List.mem_cons, not_or] at h
  obtain ⟨h1, h2, h3, h4, h5, h6, h7, h8, h9, -⟩ := h
  simp [generateShadcnJSX, h1, h2, h3, h4, h5, h6, h7, h8, h9]

theorem generateBootstrapJSX_unknown (n : Nat) (item : Item) (d : PageData)
    (h : item.type ∉ emitterTypes) : generateBootstrapJSX (n+1) item d = "" := by
  simp only [emitterTypes, List.mem_cons, not_or] at h
  obtain ⟨h1, h2, h3, h4, h5, h6, h7, h8, h9, -⟩ := h
  simp [generateBootstrapJSX, h1, h2, h3, h4, h5, h6, h7, h8, h9]

theorem shadcnLineFor_of_none {t : String} (h : shadcnEntryFor t = none) : shadcnLineFor t = "" := by
  simp [shadcnLineFor, h]

theorem cliFor_of_none {t : String} (h : shadcnEntryFor t = none) : cliFor t = "" := by
  simp [cliFor, h]

/-- The keys of `SHADCN_COMPONENT_MAP` with a nonempty import path. -/
def importBearingTypes : List String :=
  ["Card", "Button", "Input", "Label", "Accordion", "Separator", "Badge", "Alert", "Progress"]

theorem shadcnLineFor_mem_of_ne_empty {t : String} (h : shadcnLineFor t ≠ "") :
    t ∈ importBearingTypes := by
  by_cases hs : t = "Section"
  · subst hs
    exact absurd (by decide) h
  · by_contra hmem
    simp only [importBearingTypes, List.mem_cons, not_or] at hmem
    obtain ⟨h1, h2, h3, h4, h5, h6, h7, h8, h9, -⟩ := hmem
    have e0 : (t == "Section") = false := by simpa using hs
    have e1 : (t == "Card") = false := by simpa using h1
    have e2 : (t == "Button") = false := by simpa using h2
    have e3 : (t == "Input") = false := by simpa using h3
    have e4 : (t == "Label") = false := by simpa using h4
    have e5 : (t == "Accordion") = false := by simpa using h5
    have e6 : (t == "Separator") = false := by simpa using h6
    have e7 : (t == "Badge") = false := by simpa using h7
    have e8 : (t == "Alert") = false := by simpa using h8
    have e9 : (t == "Progress") = false := by simpa using h9
    exact h (by simp [shadcnLineFor, shadcnEntryFor, SHADCN_COMPONENT_MAP, List.lookup,
      e0, e1, e2, e3, e4, e5, e6, e7, e8, e9])

theorem shadcnLineFor_inj_on_keys :
    ∀ a ∈ importBearingTypes, ∀ b ∈ importBearingTypes, shadcnLineFor a = shadcnLineFor b → a = b := by
  decide

theorem shadcnLineFor_inj {x t : String} (ht : shadcnLineFor t ≠ "")
    (hx : shadcnLineFor x = shadcnLineFor t) : x = t := by
  have hx' : shadcnLineFor x ≠ "" := by rw [hx]; exact ht
  exact shadcnLineFor_inj_on_keys x (shadcnLineFor_mem_of_ne_empty hx')
    t (shadcnLineFor_mem_of_ne_empty ht) hx

theorem count_map_eq_count {α β : Type} [DecidableEq α] [DecidableEq β] (f : α → β) (t : α)
    (hinj : ∀ x, f x = f t → x = t) (l : List α) :
    List.count (f t) (l.map f) = List.count t l := by
  induction l with
  | nil => rfl
  | cons x xs ih =>
    rw [List.map_cons, List.count_cons, List.count_cons, ih]
    by_cases hfx : f x = f t
    · have : x = t := hinj x hfx
      simp [this, hfx]
    · have hxt : ¬ x = t := fun he => hfx (by rw [he])
      simp [hfx, hxt]

/-- The shadcn Section markup when every one of its column zones resolves to
the empty sequence. -/
def shadcnSectionEmpty (item : Item) : String :=
  shadcnSectionShell item.props
    (String.intercalate "\n" ((List.range (colCountOf item)).map (fun _ => shadcnColumnDiv (String.intercalate "\n          " ([] : List String)))))

/-- The bootstrap Section markup when every one of its column zones resolves
to the empty sequence. -/
def bootstrapSectionEmpty (item : Item) : String :=
  bootstrapSectionShell item.props
    (String.intercalate "\n" ((List.range (colCountOf item)).map (fun _ => bootstrapColumnDiv (12 / colCountOf item) (String.intercalate "\n" ([] : List String)))))

theorem generateShadcnJSX_missing_zones (n : Nat) (item : Item) (d : PageData)
    (hsec : item.type = "Section")
    (hmiss : ∀ i < colCountOf item, d.zones.lookup (zoneKeyOf item i) = none) :
    generateShadcnJSX (n+1) item d = shadcnSectionEmpty item := by
  rw [generateShadcnJSX_section n item d hsec, shadcnSectionEmpty]
  congr 1
  congr 1
  apply List.map_congr_left
  intro i hi
  rw [zoneItemsAt, hmiss i (List.mem_range.mp hi), Option.getD_none, List.map_nil]

theorem generateBootstrapJSX_missing_zones (n : Nat) (item : Item) (d : PageData)
    (hsec : item.type = "Section")
    (hmiss : ∀ i < colCountOf item, d.zones.lookup (zoneKeyOf item i) = none) :
    generateBootstrapJSX (n+1) item d = bootstrapSectionEmpty item := by
  rw [generateBootstrapJSX_section n item d hsec, bootstrapSectionEmpty]
  congr 1
  congr 1
  apply List.map_congr_left
  intro i hi
  rw [zoneItemsAt, hmiss i (List.mem_range.mp hi), Option.getD_none, List.map_nil]

theorem zipAdd_mem_self (entries : List (String × String)) (path content : String) :
    (path, content) ∈ zipAdd entries path content := by
  rw [zipAdd]
  split
  · next h =>
    obtain ⟨e, he, hep⟩ := List.any_eq_true.mp h
    refine List.mem_map.mpr ⟨e, he, ?_⟩
    rw [if_pos (by simpa using hep)]
  · exact List.mem_append_right _ (List.mem_singleton.mpr rfl)

/-- A demo document for witnesses: a 3-column Section with one Badge child
placed in each of its column zones, plus an Input beside it. -/
def demoSection : Item :=
  { type := "Section", puckId := some "Section-1", props := { columns := 3 } }

def demoBadge (s : String) : Item :=
  { type := "Badge", puckId := some ("Badge-" ++ s), props := { text := s, variant := "default" } }

def demoData : PageData :=
  { root := { canvasColor := "#ffffff", maxWidth := "max-w-6xl", pageTitle := "Home" },
    content := [demoSection, { type := "Input", puckId := some "Input-1", props := { label := "Name" } }],
    zones := [("Section-1:col-0", [demoBadge "AAA"]), ("Section-1:col-1", [demoBadge "BBB"]), ("Section-1:col-2", [demoBadge "CCC"])] }

/-- C1: the spec requires every prop value interpolated into emitted markup
to be escaped against the target's text-literal syntax; the code applies no
escaping at all.  At this concrete Input node whose `placeholder` contains a
double quote, both emitters interpolate the raw value, so the emitted
`placeholder="..."` attribute is closed early and the remainder of the prop
value lands outside the string literal as a new attribute — the premature
termination the spec forbids, and the value cannot round-trip. -/
theorem c1_unescaped_prop_value :
    generateShadcnJSX 1 { type := "Input", props := { type := "text", placeholder := "\" onfocus=\"alert(1)", label := "Name" } } {} =
      "<div className=\"space-y-2\"><Label>Name</Label><Input type=\"text\" placeholder=\"\" onfocus=\"alert(1)\" /></div>" ∧
    generateBootstrapJSX 1 { type := "Input", props := { type := "text", placeholder := "\" onfocus=\"alert(1)", label := "Name" } } {} =
      "\n        <div className=\"mb-3\">\n          <label className=\"form-label fw-bold text-muted small text-uppercase\">Name</label>\n          <input type=\"text\" className=\"form-control\" placeholder=\"\" onfocus=\"alert(1)\" />\n        </div>" :=
  ⟨rfl, rfl⟩

/-- C2: for either target, a Section node configured with N columns emits
every column zone `0..N-1`: any child stored in any of those zones appears
(as a contiguous substring) in the Section's emitted markup. -/
theorem c2_section_emits_all_columns (n : Nat) (item : Item) (d : PageData) (i : Nat) (child : Item)
    (hsec : item.type = "Section") (hi : i < item.props.columns)
    (hchild : child ∈ zoneItemsAt d item i) :
    (generateShadcnJSX n child d).data <:+: (generateShadcnJSX (n+1) item d).data ∧
    (generateBootstrapJSX n child d).data <:+: (generateBootstrapJSX (n+1) item d).data :=
  ⟨section_child_emitted_shadcn n item d i child hsec hi hchild,
   section_child_emitted_bootstrap n item d i child hsec hi hchild⟩

theorem c2_section_emits_all_columns_witness :
    ((generateShadcnJSX 1 (demoBadge "AAA") demoData).data <:+: (generateShadcnJSX 2 demoSection demoData).data ∧
      (generateBootstrapJSX 1 (demoBadge "AAA") demoData).data <:+: (generateBootstrapJSX 2 demoSection demoData).data) ∧
    ((generateShadcnJSX 1 (demoBadge "BBB") demoData).data <:+: (generateShadcnJSX 2 demoSection demoData).data ∧
      (generateBootstrapJSX 1 (demoBadge "BBB") demoData).data <:+: (generateBootstrapJSX 2 demoSection demoData).data) ∧
    ((generateShadcnJSX 1 (demoBadge "CCC") demoData).data <:+: (generateShadcnJSX 2 demoSection demoData).data ∧
      (generateBootstrapJSX 1 (demoBadge "CCC") demoData).data <:+: (generateBootstrapJSX 2 demoSection demoData).data) :=
  ⟨c2_section_emits_all_columns 1 demoSection demoData 0 (demoBadge "AAA") rfl (by decide) (by decide),
   c2_section_emits_all_columns 1 demoSection demoData 1 (demoBadge "BBB") rfl (by decide) (by decide),
   c2_section_emits_all_columns 1 demoSection demoData 2 (demoBadge "CCC") rfl (by decide) (by decide)⟩

/-- C3 counterexample: the claim says a title consisting only of
non-alphanumeric characters falls back to the fixed placeholder identifier;
in the code `replace(/[^a-z0-9]/gi, '_')` turns every such character into an
underscore, so the result is never empty and the `|| "untitled"` fallback
does not fire: the title `"!!!"` derives `"___"`, not `"untitled"`. -/
theorem c3_identifier_fallback_counterexample :
    derivePageName "!!!" = "___" ∧ derivePageName "!!!" ≠ "untitled" := by
  exact ⟨rfl, by decide⟩

/-- C3 (amended): the derived identifier replaces non-alphanumerics with an
underscore and case-folds, and the fixed placeholder is used exactly when
the title is empty: a non-empty title always derives a same-length
identifier (never the fallback path), and a non-empty title of only
non-alphanumeric characters derives all underscores. -/
theorem c3_identifier_fallback (t : String) :
    (t = "" → derivePageName t = "untitled") ∧
    (t ≠ "" → derivePageName t =
        String.mk ((t.data.map (fun c => if c.isAlphanum then c else '_')).map Char.toLower) ∧
      (derivePageName t).length = t.length) ∧
    ((t ≠ "" ∧ ∀ c ∈ t.data, ¬ c.isAlphanum) →
      derivePageName t = String.mk (t.data.map (fun _ => '_'))) := by
  have hdata : t = "" ↔ t.data = [] := by
    rw [String.ext_iff]
  refine ⟨?_, ?_, ?_⟩
  · intro h
    subst h
    rfl
  · intro h
    have hne : String.mk ((t.data.map (fun c => if c.isAlphanum then c else '_')).map Char.toLower) ≠ "" := by
      rw [Ne, String.ext_iff]
      simp only [String.mk]
      intro hc
      exact h (hdata.mpr (by simpa using hc))
    constructor
    · rw [derivePageName]
      exact if_neg hne
    · rw [derivePageName, if_neg hne]
      show ((t.data.map _).map Char.toLower).length = t.data.length
      simp
  · rintro ⟨h, hall⟩
    have hne : String.mk ((t.data.map (fun c => if c.isAlphanum then c else '_')).map Char.toLower) ≠ "" := by
      rw [Ne, String.ext_iff]
      simp only [String.mk]
      intro hc
      exact h (hdata.mpr (by simpa using hc))
    rw [derivePageName, if_neg hne]
    congr 1
    rw [List.map_map]
    apply List.map_congr_left
    intro c hc
    simp [hall c hc]

theorem c3_identifier_fallback_witness :
    derivePageName "" = "untitled" ∧ derivePageName "!" = String.mk (("!" : String).data.map (fun _ => '_')) :=
  ⟨(c3_identifier_fallback "").1 rfl,
   (c3_identifier_fallback "!").2.2 ⟨by decide, by decide⟩⟩

def pageTitled (t : String) : Page :=
  { data := { root := { pageTitle := t } } }

/-- C4 counterexample: the claim says exporting K pages yields exactly K
page files; JSZip keys entries by full path, so two pages whose titles
derive the same identifier overwrite each other.  Exporting two pages both
titled "Home" yields one page file plus the README — two entries, not
three. -/
theorem c4_archive_counts_counterexample :
    (buildArchive [pageTitled "Home", pageTitled "Home"] ExportFormat.shadcn).map Prod.fst =
      ["src/pages/home.tsx", "README.md"] ∧
    (buildArchive [pageTitled "Home", pageTitled "Home"] ExportFormat.shadcn).length ≠ 2 + 1 :=
  ⟨rfl, by decide⟩

/-- C4 (amended): when the K pages derive pairwise distinct identifiers, the
archive holds exactly K page files — one per page, named
`src/pages/<derived-identifier>.tsx` in page order — plus exactly one
README at the root; with colliding identifiers the later page overwrites
the earlier entry at the same path. -/
theorem c4_archive_counts (pages : List Page) (fmt : ExportFormat)
    (hnd : (pages.map (fun p => derivePageName p.data.root.pageTitle)).Nodup) :
    (buildArchive pages fmt).map Prod.fst =
      pages.map (fun p => pagePath p.data) ++ ["README.md"] ∧
    (buildArchive pages fmt).length = pages.length + 1 := by
  have h := buildArchive_paths pages fmt hnd
  refine ⟨h, ?_⟩
  have hlen := congrArg List.length h
  simpa using hlen

theorem c4_archive_counts_witness :
    (buildArchive [pageTitled "Home", pageTitled "About"] ExportFormat.shadcn).map Prod.fst =
      [pageTitled "Home", pageTitled "About"].map (fun p => pagePath p.data) ++ ["README.md"] ∧
    (buildArchive [pageTitled "Home", pageTitled "About"] ExportFormat.shadcn).length =
      ([pageTitled "Home", pageTitled "About"] : List Page).length + 1 :=
  c4_archive_counts [pageTitled "Home", pageTitled "About"] ExportFormat.shadcn (by decide)

/-- C5: the README is generated from the union of node types collected
across all pages: membership in the accumulated `allUsedComponents` set is
exactly "collected on some page of the export", the shadcn archive's README
entry is the CLI command rendered from that across-pages union, and the
bootstrap README is the fixed bootstrap install instruction. -/
theorem c5_readme_from_union (pages : List Page) :
    (∀ t, t ∈ allUsedList pages ↔ ∃ p ∈ pages, t ∈ usedOnPage (pageFuel p.data) p.data) ∧
    ("README.md", shadcnReadme (allUsedList pages)) ∈ buildArchive pages ExportFormat.shadcn ∧
    ("README.md", bootstrapReadme) ∈ buildArchive pages ExportFormat.bootstrap := by
  refine ⟨fun t => mem_allUsedList pages t, ?_, ?_⟩
  · rw [buildArchive]
    have hsnd := exportFold_snd pages ([], [])
    have : (pages.foldl (exportStep ExportFormat.shadcn) ([], [])).2 = allUsedList pages := by
      rw [hsnd]
      rfl
    rw [this]
    exact zipAdd_mem_self _ _ _
  · rw [buildArchive]
    exact zipAdd_mem_self _ _ _

/-- C6: on the shadcn target, every node type the emitter can reach through
the page's zone tree whose map entry carries a nonempty module path
contributes its declaration to the page's import-line list exactly once: no
duplicates (the used-type set is duplicate-free and distinct types have
distinct lines) and none missing (the collection walk covers every
emitter-reachable zone), provided every stored item carries a truthy puck
id as Puck assigns one to every placed node. -/
theorem c6_imports_exactly_once (n : Nat) (d : PageData) (t : String)
    (hpidc : ∀ i ∈ d.content, puckTruthy i = true)
    (hpidz : ∀ kv ∈ d.zones, ∀ i ∈ kv.2, puckTruthy i = true)
    (hreach : t ∈ reachTypes n d d.content)
    (himp : shadcnLineFor t ≠ "") :
    List.count (shadcnLineFor t) (((usedOnPage n d).map shadcnLineFor).filter (fun s => s ≠ "")) = 1 ∧
    shadcnImportBlock (usedOnPage n d) =
      String.intercalate "\n" (((usedOnPage n d).map shadcnLineFor).filter (fun s => s ≠ "")) := by
  have hpid : ∀ it, ItemIn d it → puckTruthy it = true := by
    rintro it (hit | ⟨kv, hkv, hit⟩)
    · exact hpidc it hit
    · exact hpidz kv hkv it hit
  have ht : t ∈ usedOnPage n d :=
    reach_subset_findUsed n d d.content [] hpid (fun i hi => Or.inl hi) t hreach
  have hcount : List.count t (usedOnPage n d) = 1 :=
    List.count_eq_one_of_mem (usedOnPage_nodup n d) ht
  refine ⟨?_, rfl⟩
  rw [List.count_filter (by simpa using himp)]
  rw [count_map_eq_count shadcnLineFor t (fun x hx => shadcnLineFor_inj himp hx)]
  exact hcount

theorem reachTypes_mem_top (n : Nat) (d : PageData) (items : List Item) (i : Item)
    (hi : i ∈ items) : i.type ∈ reachTypes (n+1) d items := by
  rw [reachTypes]
  exact List.mem_flatMap.mpr ⟨i, hi, List.mem_cons_self _ _⟩

theorem c6_imports_exactly_once_witness :
    List.count (shadcnLineFor "Input")
      (((usedOnPage 3 demoData).map shadcnLineFor).filter (fun s => s ≠ "")) = 1 ∧
    shadcnImportBlock (usedOnPage 3 demoData) =
      String.intercalate "\n" (((usedOnPage 3 demoData).map shadcnLineFor).filter (fun s => s ≠ "")) :=
  c6_imports_exactly_once 3 demoData "Input" (by decide) (by decide)
    (reachTypes_mem_top 2 demoData demoData.content
      { type := "Input", puckId := some "Input-1", props := { label := "Name" } } (by decide))
    (by decide)

/-- C7: the dependency-collection walk descends into every zone of a
container whose key extends the item's puck id — in particular every column
zone `puckId:col-idx` for every index, matching (and covering) the
emitter's zone rule — so any child stored in any such zone contributes its
type to the collected set; and every Input or Progress item additionally
contributes the implicit Label companion type. -/
theorem c7_collection_descends_all_zones (n : Nat) (d : PageData) (item : Item) (rest : List Item)
    (acc : List String) :
    (∀ idx child, puckTruthy item = true → child ∈ zoneItemsAt d item idx →
      child.type ∈ findUsed (n+1) d (item :: rest) acc) ∧
    ((item.type = "Input" ∨ item.type = "Progress") →
      "Label" ∈ findUsed (n+1) d (item :: rest) acc) := by
  constructor
  · intro idx child hp hchild
    cases hlk : d.zones.lookup (zoneKeyOf item idx) with
    | none =>
      rw [zoneItemsAt, hlk, Option.getD_none] at hchild
      cases hchild
    | some zs =>
      have hz : child ∈ zs := by
        rw [zoneItemsAt, hlk] at hchild
        exact hchild
      have hkv : (zoneKeyOf item idx, zs) ∈ d.zones := lookup_mem hlk
      have htype : ∀ acc', child.type ∈ findUsed n d zs acc' := fun acc' =>
        mem_findUsed_type n d zs acc' child hz
      have hzones : ∀ acc', child.type ∈ findUsedZones n d d.zones (pidStr item) acc' := fun acc' =>
        mem_findUsedZones_descend n d d.zones (pidStr item) acc' _ hkv
          (zoneKeyOf_startsWith item idx) _ htype
      exact mem_findUsed_descend n d (item :: rest) acc item (List.mem_cons_self _ _) hp _ hzones
  · intro hio
    exact mem_findUsed_label (n+1) d (item :: rest) acc item (List.mem_cons_self _ _) hio

theorem c7_collection_descends_all_zones_witness :
    (demoBadge "CCC").type ∈ findUsed 2 demoData (demoSection :: []) [] ∧
    "Label" ∈ findUsed 2 demoData ({ type := "Input", puckId := some "Input-1", props := { label := "Name" } } :: []) [] :=
  ⟨(c7_collection_descends_all_zones 1 demoData demoSection [] []).1 2 (demoBadge "CCC")
      (by decide) (by decide),
   (c7_collection_descends_all_zones 1 demoData
      { type := "Input", puckId := some "Input-1", props := { label := "Name" } } [] []).2
      (Or.inl rfl)⟩

/-- C8: a Section whose zone addresses have no entry in the page's zone map
still emits: each missing zone is treated as an empty child sequence, and
the emitted markup is exactly the Section shell with empty column bodies,
for both targets (emission is total — it never throws). -/
theorem c8_missing_zone_empty (n : Nat) (item : Item) (d : PageData)
    (hsec : item.type = "Section")
    (hmiss : ∀ i < colCountOf item, d.zones.lookup (zoneKeyOf item i) = none) :
    generateShadcnJSX (n+1) item d = shadcnSectionEmpty item ∧
    generateBootstrapJSX (n+1) item d = bootstrapSectionEmpty item :=
  ⟨generateShadcnJSX_missing_zones n item d hsec hmiss,
   generateBootstrapJSX_missing_zones n item d hsec hmiss⟩

theorem c8_missing_zone_empty_witness :
    generateShadcnJSX 1 { type := "Section", puckId := some "Orphan-9", props := { columns := 2 } } demoData =
      shadcnSectionEmpty { type := "Section", puckId := some "Orphan-9", props := { columns := 2 } } ∧
    generateBootstrapJSX 1 { type := "Section", puckId := some "Orphan-9", props := { columns := 2 } } demoData =
      bootstrapSectionEmpty { type := "Section", puckId := some "Orphan-9", props := { columns := 2 } } :=
  c8_missing_zone_empty 0 { type := "Section", puckId := some "Orphan-9", props := { columns := 2 } }
    demoData rfl (by decide)

/-- C9: a node type with no emission rule in the active target emits empty
text (the `switch` default) for both targets, and a type absent from the
resolution map contributes neither an import line nor a CLI package: the
page still compiles, simply omitting that node. -/
theorem c9_unknown_type_empty (n : Nat) (item : Item) (d : PageData) (t : String) :
    (item.type ∉ emitterTypes →
      generateShadcnJSX (n+1) item d = "" ∧ generateBootstrapJSX (n+1) item d = "") ∧
    (shadcnEntryFor t = none → shadcnLineFor t = "" ∧ cliFor t = "") := by
  constructor
  · intro h
    exact ⟨generateShadcnJSX_unknown n item d h, generateBootstrapJSX_unknown n item d h⟩
  · intro h
    exact ⟨shadcnLineFor_of_none h, cliFor_of_none h⟩

theorem c9_unknown_type_empty_witness :
    (generateShadcnJSX 1 { type := "Carousel" } demoData = "" ∧
      generateBootstrapJSX 1 { type := "Carousel" } demoData = "") ∧
    (shadcnLineFor "Carousel" = "" ∧ cliFor "Carousel" = "") :=
  ⟨(c9_unknown_type_empty 0 { type := "Carousel" } demoData "Carousel").1 (by decide),
   (c9_unknown_type_empty 0 { type := "Carousel" } demoData "Carousel").2 (by decide)⟩

/-- C10: compilation is a pure function of the page list and target — two
runs on the same input produce the identical archive (every page file and
the README byte for byte) — and the only ordering the output depends on is
the stored one: the used-type set read back for imports and the CLI command
is exactly the first-occurrence deduplication (JS `Set` insertion order) of
the deterministic traversal sequence. -/
theorem c10_deterministic (pages : List Page) (fmt : ExportFormat) (n : Nat) (d : PageData) :
    buildArchive pages fmt = buildArchive pages fmt ∧
    usedOnPage n d = dedupKeepFirst (findUsedSeq n d d.content) :=
  ⟨rfl, usedOnPage_eq_dedup n d⟩
